import Mathlib

/-!
Verification of the product-dashboard analytics core (src/app.py).

The file shallowly embeds the data-generation and aggregation logic of the
dashboard: the synthetic trend generator, the channel-mix generator, the
product-record factory with its fixed catalog, the cached catalog access,
and the aggregation, sorting and classification views.  Randomness is made
explicit: every random primitive of the source becomes an input value
together with a validity predicate describing exactly the set of values the
primitive can produce (numpy randint is half-open, python randint and
uniform are inclusive, a dirichlet vector is a point of the probability
simplex).  Floating-point values are modelled as rationals.
-/

/-- Running cumulative sums of a list of integers; the semantics of
np.cumsum applied to a one-dimensional integer array. -/
def cumsum (xs : List Int) : List Int :=
  (List.scanl (fun a b => a + b) 0 xs).tail

/-- Elementwise one-sided lower clip; the semantics of
np.clip (a, lo, None): each element is replaced by max lo element, and
there is no upper bound. -/
def npClipLower (lo : Int) (xs : List Int) : List Int :=
  xs.map (fun x => max lo x)

/-- Last k elements of a list; the semantics of the python slice xs[-k:]
for k at most the length of xs. -/
def lastK (k : Nat) (xs : List Int) : List Int :=
  xs.drop (xs.length - k)

/-- Rounding to one decimal place, the semantics of round (x, 1) in the
source, modelled on the rationals.  Python rounds halves to even while
round on the rationals rounds halves up; the two agree except on exact
ties at the second decimal, and every property proved below uses only the
bound that the result is within 1/20 of the argument, which holds for
both conventions. -/
def round1 (x : ℚ) : ℚ :=
  ((round (10 * x) : ℤ) : ℚ) / 10

/-- Fixed list of product names (line 15 of the source). -/
def product_names : List String :=
  ["Aurora Buds", "Nova Mug", "Zenith Mat", "Lumos Lamp", "Terra SSD",
   "Helios Charger", "Orion Mousepad"]

/-- Static name-to-category dictionary (lines 16-19 of the source).  The
python dict raises on a missing key; the final branch returns the empty
string for names that never occur. -/
def product_categories_map (n : String) : String :=
  if n = "Aurora Buds" then "Electronics"
  else if n = "Nova Mug" then "Home Goods"
  else if n = "Zenith Mat" then "Wellness"
  else if n = "Lumos Lamp" then "Office"
  else if n = "Terra SSD" then "Electronics"
  else if n = "Helios Charger" then "Electronics"
  else if n = "Orion Mousepad" then "Office"
  else ""

/-- Fixed ordered channel list (line 20 of the source). -/
def channels : List String :=
  ["Organic", "Paid Social", "Email", "Affiliate"]

/-- Number of months in every trend (line 21 of the source). -/
def num_months : Nat := 12

/-- One product record of the catalog, with the fields built on lines
27-36 of the source.  Monetary and unit values are integers, the rating
and the channel percentages are rationals, the channel share is the
ordered association list built by the dict comprehension on line 34. -/
structure ProductRecord where
  id : String
  name : String
  category : String
  ytdRevenue : Int
  ytdUnits : Int
  revenueTrend : List Int
  unitsTrend : List Int
  rating : ℚ
  stock : String
  channelShare : List (String × ℚ)
  targetMetPercent : Int
deriving DecidableEq

/-- Outcomes of all random primitives consumed while building one product
record (lines 24-35 of the source), made explicit as data. -/
structure ProductDraws where
  revStart : Int
  revSteps : List Int
  unitsStart : Int
  unitsSteps : List Int
  chanDist : List ℚ
  ratingDraw : ℚ
  stockDraw : String
  targetDraw : Int
deriving DecidableEq

/-- Characterisation of the values each random primitive of the source can
actually produce:
np.random.randint (lo, hi) draws an integer from lo inclusive to hi
exclusive (revenue start 300..1499, revenue steps -100..149, units start
10..79, units steps -10..19, with 12 steps per trend);
np.random.dirichlet (np.ones 4) produces a point of the 4-simplex, so four
nonnegative reals summing to one;
random.uniform (3.5, 4.9) produces a real of the inclusive interval;
random.choice picks one of the three stock labels;
random.randint (60, 125) draws an integer from the inclusive range. -/
def ProductDraws.Valid (d : ProductDraws) : Prop :=
  (300 ≤ d.revStart ∧ d.revStart < 1500) ∧
  d.revSteps.length = num_months ∧
  (∀ s ∈ d.revSteps, -100 ≤ s ∧ s < 150) ∧
  (10 ≤ d.unitsStart ∧ d.unitsStart < 80) ∧
  d.unitsSteps.length = num_months ∧
  (∀ s ∈ d.unitsSteps, -10 ≤ s ∧ s < 20) ∧
  d.chanDist.length = channels.length ∧
  (∀ x ∈ d.chanDist, 0 ≤ x) ∧
  d.chanDist.sum = 1 ∧
  (7 / 2 ≤ d.ratingDraw ∧ d.ratingDraw ≤ 49 / 10) ∧
  d.stockDraw ∈ (["In Stock", "Low", "Out"] : List String) ∧
  (60 ≤ d.targetDraw ∧ d.targetDraw ≤ 125)

/-- Construction of one product record from its draws; the body of the
loop on lines 23-36 of the source.  The trends are the clipped random
walks of lines 24-25, the year-to-date figures sum the last three trend
elements (lines 29-30), and the channel share zips the channel list with
the rounded scaled dirichlet vector (lines 26 and 34). -/
def mkRecord (i : Nat) (n : String) (d : ProductDraws) : ProductRecord :=
  let rev_trend := npClipLower 50 ((cumsum d.revSteps).map (fun c => d.revStart + c))
  let units_trend := npClipLower 5 ((cumsum d.unitsSteps).map (fun c => d.unitsStart + c))
  let chan_dist := d.chanDist.map (fun p => 100 * p)
  ⟨"P" ++ toString (i + 201),
   n,
   product_categories_map n,
   (lastK 3 rev_trend).sum,
   (lastK 3 units_trend).sum,
   rev_trend,
   units_trend,
   round1 d.ratingDraw,
   d.stockDraw,
   channels.zip (chan_dist.map round1),
   d.targetDraw⟩

/-- Catalog construction, the function generate_initial_data of the source
(lines 14-38): one record per product name, in order, with sequential ids;
the randomness consumed by each iteration is passed in as one
ProductDraws value per name. -/
def generate_initial_data (draws : List ProductDraws) : List ProductRecord :=
  ((product_names.zip draws).enum).map (fun p => mkRecord p.1 p.2.1 p.2.2)

/-- Process-wide state of the st.cache_data decorator on
generate_initial_data (line 13): either no catalog has been built yet or
the built catalog is cached. -/
structure AppState where
  cache : Option (List ProductRecord)
deriving DecidableEq

/-- Cached catalog access (lines 13-14 and 40 of the source): the
st.cache_data decorator returns the cached value when one exists and
otherwise runs the generator, consuming randomness, and stores the
result. -/
def getCatalog (draws : List ProductDraws) (s : AppState) :
    List ProductRecord × AppState :=
  match s.cache with
  | some c => (c, s)
  | none => (generate_initial_data draws, ⟨some (generate_initial_data draws)⟩)

/-- Total revenue KPI (line 71 of the source): pandas sum of the YTD
Revenue column, which is 0 on an empty frame. -/
def totalRevenue (recs : List ProductRecord) : Int :=
  (recs.map (fun r => r.ytdRevenue)).sum

/-- Total units KPI (line 72 of the source): pandas sum of the YTD Units
column, which is 0 on an empty frame. -/
def totalUnits (recs : List ProductRecord) : Int :=
  (recs.map (fun r => r.ytdUnits)).sum

/-- Average rating KPI (line 73 of the source): pandas mean of the Rating
column.  On an empty frame pandas returns NaN rather than raising, which
the embedding renders as none. -/
def averageRating (recs : List ProductRecord) : Option ℚ :=
  if recs.length = 0 then none
  else some ((recs.map (fun r => r.rating)).sum / (recs.length : ℚ))

/-- Sort columns offered by the sidebar (line 47 of the source). -/
inductive SortColumn
  | ytdRevenue
  | rating
  | ytdUnits
deriving DecidableEq

/-- Comparison on the selected column, matching the dtype pandas compares
on: integers for the revenue and units columns, reals for the rating. -/
def keyLe (c : SortColumn) : ProductRecord → ProductRecord → Prop :=
  fun a b =>
    match c with
    | SortColumn.ytdRevenue => a.ytdRevenue ≤ b.ytdRevenue
    | SortColumn.rating => a.rating ≤ b.rating
    | SortColumn.ytdUnits => a.ytdUnits ≤ b.ytdUnits

instance instDecKeyLe (c : SortColumn) : DecidableRel (keyLe c) :=
  fun a b =>
    match c with
    | SortColumn.ytdRevenue => inferInstanceAs (Decidable (a.ytdRevenue ≤ b.ytdRevenue))
    | SortColumn.rating => inferInstanceAs (Decidable (a.rating ≤ b.rating))
    | SortColumn.ytdUnits => inferInstanceAs (Decidable (a.ytdUnits ≤ b.ytdUnits))

/-- Membership of two records in the same tie class of a sort column: the
second record agrees with the first on the sort key. -/
def keyClass (c : SortColumn) (r0 : ProductRecord) : ProductRecord → Bool :=
  fun r =>
    match c with
    | SortColumn.ytdRevenue => r.ytdRevenue == r0.ytdRevenue
    | SortColumn.rating => r.rating == r0.rating
    | SortColumn.ytdUnits => r.ytdUnits == r0.ytdUnits

/-- Sorted comparison view, the semantics of
df_products.sort_values (by, ascending) on line 140 of the source.  For a
single sort column pandas argsorts the column with numpy and, when
ascending is false, reverses the resulting indexer; numpy argsort with the
default quicksort kind runs plain insertion sort on arrays shorter than 16
elements, so on this 7-row frame the ascending permutation is the stable
insertion-sort order. -/
def sort_values (recs : List ProductRecord) (c : SortColumn) (asc : Bool) :
    List ProductRecord :=
  let s := List.insertionSort (keyLe c) recs
  if asc then s else s.reverse

/-- Target-status classification of lines 159-161 of the source: the
emoji-labelled string chosen by the comparison chain against the good and
warning thresholds. -/
def status_emoji (target_met_val target_good_threshold target_warning_threshold : Int) :
    String :=
  if target_met_val ≥ target_good_threshold then "✅ Good"
  else if target_met_val ≥ target_warning_threshold then "⚠️ Warning"
  else "❌ Needs Improvement"

/-- Boolean code-point-wise lexicographic comparison of character lists,
the order python and pandas use on strings. -/
def charListLe : List Char → List Char → Bool
  | [], _ => true
  | _ :: _, [] => false
  | c :: cs, d :: ds =>
    if c < d then true else if d < c then false else charListLe cs ds

/-- Lexicographic comparison of strings by code points. -/
def strLe (a b : String) : Bool :=
  charListLe a.data b.data

/-- Distinct categories of the catalog in sorted key order, the group keys
produced by groupby ("Category") on line 168 of the source. -/
def categories_sorted (recs : List ProductRecord) : List String :=
  List.insertionSort (fun a b => strLe a b = true)
    ((recs.map (fun r => r.category)).dedup)

/-- Category roll-up, the expression on line 168 of the source:
groupby ("Category") collects the distinct categories in sorted key order,
sums the YTD Revenue column inside each group, and the final
sort_values (ascending=True) orders the category totals ascending by
value. -/
def category_performance (recs : List ProductRecord) : List (String × Int) :=
  List.insertionSort (fun p q : String × Int => p.2 ≤ q.2)
    ((categories_sorted recs).map
      (fun c => (c, ((recs.filter (fun r => r.category == c)).map
        (fun r => r.ytdRevenue)).sum)))

/-- Range of the comparison-column slider on line 51 of the source:
min_value 1, max_value 7. -/
def sliderAccepts (n : Nat) : Prop :=
  1 ≤ n ∧ n ≤ 7

/-- Column assignment of record position i in the comparison grid, line
144 of the source. -/
def col_idx (i num_comparison_cols : Nat) : Nat :=
  i % num_comparison_cols

/-- Fixed example draw used by the concrete witnesses below. -/
def d0 : ProductDraws :=
  ⟨300, List.replicate 12 0, 10, List.replicate 12 0, [1, 0, 0, 0], 4, "Low", 100⟩

/-- Record built from the example draw in position 0. -/
def r0 : ProductRecord :=
  mkRecord 0 ("Aurora Buds") d0

/-- Seven copies of the example draw, one per product name. -/
def draws7 : List ProductDraws :=
  List.replicate 7 d0

/-- Concrete full catalog generated from the seven example draws; every
record of it carries the same year-to-date revenue of 900. -/
def cat7 : List ProductRecord :=
  generate_initial_data draws7

/-! Projection lemmas for mkRecord, used throughout the proofs. -/

theorem mkRecord_ytdRevenue (i : Nat) (n : String) (d : ProductDraws) :
    (mkRecord i n d).ytdRevenue =
      (lastK 3 (npClipLower 50 ((cumsum d.revSteps).map (fun c => d.revStart + c)))).sum := rfl

theorem mkRecord_ytdUnits (i : Nat) (n : String) (d : ProductDraws) :
    (mkRecord i n d).ytdUnits =
      (lastK 3 (npClipLower 5 ((cumsum d.unitsSteps).map (fun c => d.unitsStart + c)))).sum := rfl

theorem mkRecord_revenueTrend (i : Nat) (n : String) (d : ProductDraws) :
    (mkRecord i n d).revenueTrend =
      npClipLower 50 ((cumsum d.revSteps).map (fun c => d.revStart + c)) := rfl

theorem mkRecord_unitsTrend (i : Nat) (n : String) (d : ProductDraws) :
    (mkRecord i n d).unitsTrend =
      npClipLower 5 ((cumsum d.unitsSteps).map (fun c => d.unitsStart + c)) := rfl

theorem mkRecord_channelShare (i : Nat) (n : String) (d : ProductDraws) :
    (mkRecord i n d).channelShare =
      channels.zip ((d.chanDist.map (fun p => 100 * p)).map round1) := rfl

/-- Decomposition of catalog membership: every record of the generated
catalog is the record built from some position, name and draw, and that
draw is one of the supplied draws. -/
theorem mem_generate_initial_data {draws : List ProductDraws} {r : ProductRecord}
    (hr : r ∈ generate_initial_data draws) :
    ∃ i n d, d ∈ draws ∧ r = mkRecord i n d := by
  obtain ⟨p, hp, hpr⟩ := List.mem_map.mp hr
  have h2 : p.2 ∈ product_names.zip draws := by
    have := List.mem_map_of_mem Prod.snd hp
    rwa [List.enum_map_snd] at this
  have h3 : p.2.2 ∈ draws := (List.of_mem_zip h2).2
  exact ⟨p.1, p.2.1, p.2.2, h3, hpr.symm⟩

theorem d0_valid : d0.Valid := by
  refine ⟨by decide, by decide, ?_, by decide, by decide, ?_, by decide, ?_, ?_, ?_,
    by decide, by decide⟩
  · intro s hs
    rw [List.eq_of_mem_replicate hs]
    decide
  · intro s hs
    rw [List.eq_of_mem_replicate hs]
    decide
  · intro x hx
    fin_cases hx <;> norm_num
  · norm_num [d0, List.sum_cons, List.sum_nil]
  · constructor <;> norm_num [d0]

theorem r0_mem_singleton : r0 ∈ generate_initial_data [d0] := by
  have h : generate_initial_data [d0] = [r0] := rfl
  rw [h]
  exact List.mem_singleton.mpr rfl

/-- C1: for every ProductRecord in the catalog, ytdRevenue equals the sum
of the last 3 elements of its monthly revenue sequence and ytdUnits equals
the sum of the last 3 elements of its monthly units sequence (the
quarter-sum convention, not a full-year sum). -/
theorem c1_ytd_is_last_quarter_sum (draws : List ProductDraws) (r : ProductRecord)
    (hr : r ∈ generate_initial_data draws) :
    r.ytdRevenue = (lastK 3 r.revenueTrend).sum ∧
    r.ytdUnits = (lastK 3 r.unitsTrend).sum := by
  obtain ⟨i, n, d, _, rfl⟩ := mem_generate_initial_data hr
  exact ⟨rfl, rfl⟩

/-- C1 witness: the quarter-sum property evaluated on the concrete record
built from the example draw. -/
theorem c1_witness :
    r0.ytdRevenue = (lastK 3 r0.revenueTrend).sum ∧
    r0.ytdUnits = (lastK 3 r0.unitsTrend).sum :=
  c1_ytd_is_last_quarter_sum [d0] r0 r0_mem_singleton

theorem cumsum_length (xs : List Int) : (cumsum xs).length = xs.length := by
  simp [cumsum, List.length_tail, List.length_scanl]

theorem npClipLower_length (lo : Int) (xs : List Int) :
    (npClipLower lo xs).length = xs.length := by
  simp [npClipLower]

theorem npClipLower_floor (lo : Int) (xs : List Int) :
    ∀ x ∈ npClipLower lo xs, lo ≤ x := by
  intro x hx
  obtain ⟨y, _, rfl⟩ := List.mem_map.mp hx
  exact le_max_left lo y

theorem npClipLower_get (lo : Int) (xs : List Int) (i : Nat) (hi : i < xs.length)
    (hi2 : i < (npClipLower lo xs).length) :
    (npClipLower lo xs).get ⟨i, hi2⟩ = max lo (xs.get ⟨i, hi⟩) := by
  simp [npClipLower]

/-- C2: every generated trend has length exactly 12, every element is at
least its floor (50 for revenue, 5 for units), and the clipping is
one-sided: each trend is the lower clip of a raw walk, and any raw element
already at or above the floor passes through unmodified. -/
theorem c2_trend_shape (draws : List ProductDraws) (hv : ∀ d ∈ draws, d.Valid)
    (r : ProductRecord) (hr : r ∈ generate_initial_data draws) :
    (r.revenueTrend.length = 12 ∧ ∀ x ∈ r.revenueTrend, 50 ≤ x) ∧
    (r.unitsTrend.length = 12 ∧ ∀ x ∈ r.unitsTrend, 5 ≤ x) ∧
    (∃ raw : List Int, r.revenueTrend = npClipLower 50 raw ∧
      ∀ i : Nat, ∀ hi : i < raw.length, ∀ hi2 : i < r.revenueTrend.length,
        50 ≤ raw.get ⟨i, hi⟩ → r.revenueTrend.get ⟨i, hi2⟩ = raw.get ⟨i, hi⟩) ∧
    (∃ raw : List Int, r.unitsTrend = npClipLower 5 raw ∧
      ∀ i : Nat, ∀ hi : i < raw.length, ∀ hi2 : i < r.unitsTrend.length,
        5 ≤ raw.get ⟨i, hi⟩ → r.unitsTrend.get ⟨i, hi2⟩ = raw.get ⟨i, hi⟩) := by
  obtain ⟨i, n, d, hd, rfl⟩ := mem_generate_initial_data hr
  have hval := hv d hd
  have hrev : d.revSteps.length = num_months := hval.2.1
  have hunits : d.unitsSteps.length = num_months := hval.2.2.2.2.1
  rw [mkRecord_revenueTrend, mkRecord_unitsTrend]
  refine ⟨⟨?_, npClipLower_floor 50 _⟩, ⟨?_, npClipLower_floor 5 _⟩, ?_, ?_⟩
  · rw [npClipLower_length, List.length_map, cumsum_length, hrev]
    rfl
  · rw [npClipLower_length, List.length_map, cumsum_length, hunits]
    rfl
  · refine ⟨(cumsum d.revSteps).map (fun c => d.revStart + c), rfl, ?_⟩
    intro j hj hj2 hfloor
    rw [npClipLower_get 50 _ j hj hj2]
    exact max_eq_right hfloor
  · refine ⟨(cumsum d.unitsSteps).map (fun c => d.unitsStart + c), rfl, ?_⟩
    intro j hj hj2 hfloor
    rw [npClipLower_get 5 _ j hj hj2]
    exact max_eq_right hfloor

/-- C2 witness: the revenue trend of the concrete record built from the
example draw has length 12. -/
theorem c2_witness : r0.revenueTrend.length = 12 :=
  (c2_trend_shape [d0]
    (fun d hd => by rw [List.mem_singleton.mp hd]; exact d0_valid)
    r0 r0_mem_singleton).1.1

/-- Construction of a valid draw with prescribed trend randomness and
fixed unproblematic values for the remaining primitives. -/
theorem valid_of_bounds (a : Int) (ha : 300 ≤ a ∧ a < 1500) (ss : List Int)
    (hss : ss.length = 12) (hs : ∀ s ∈ ss, -100 ≤ s ∧ s < 150)
    (b : Int) (hb : 10 ≤ b ∧ b < 80) (ts : List Int) (hts : ts.length = 12)
    (ht : ∀ s ∈ ts, -10 ≤ s ∧ s < 20) :
    (ProductDraws.mk a ss b ts [1, 0, 0, 0] 4 "Low" 100).Valid := by
  refine ⟨ha, hss, hs, hb, hts, ht, ?_, ?_, ?_, ?_, ?_, ?_⟩
  · rfl
  · intro x hx
    have hx2 : x ∈ ([1, 0, 0, 0] : List ℚ) := hx
    fin_cases hx2 <;> norm_num
  · show ([1, 0, 0, 0] : List ℚ).sum = 1
    norm_num [List.sum_cons, List.sum_nil]
  · show (7 : ℚ) / 2 ≤ 4 ∧ (4 : ℚ) ≤ 49 / 10
    constructor <;> norm_num
  · show ("Low" : String) ∈ (["In Stock", "Low", "Out"] : List String)
    decide
  · show (60 : Int) ≤ 100 ∧ (100 : Int) ≤ 125
    decide

theorem replicate_step_rev (s : Int) (hs : s ∈ List.replicate 12 (0 : Int)) :
    -100 ≤ s ∧ s < 150 := by
  rw [List.eq_of_mem_replicate hs]
  decide

theorem replicate_step_units (s : Int) (hs : s ∈ List.replicate 12 (0 : Int)) :
    -10 ≤ s ∧ s < 20 := by
  rw [List.eq_of_mem_replicate hs]
  decide

/-- C6 counterexample: the upper endpoint 1500 of the stated revenue start
range is not a possible draw, because np.random.randint excludes its upper
bound; no valid draw has revStart equal to 1500. -/
theorem c6_counterexample : ¬ ∃ d : ProductDraws, d.Valid ∧ d.revStart = 1500 := by
  rintro ⟨d, hv, hx⟩
  have h := hv.1.2
  rw [hx] at h
  exact absurd h (by decide)

/-- C6 (amended): each trend draw ranges over the half-open band of
np.random.randint, so the initial values and step deltas lie in
300..1499, -100..149, 10..79 and -10..19 respectively, every integer of
those ranges is a possible draw, and nothing outside them is. -/
theorem c6_trend_draw_ranges :
    (∀ d : ProductDraws, d.Valid →
      (300 ≤ d.revStart ∧ d.revStart ≤ 1499) ∧
      (∀ s ∈ d.revSteps, -100 ≤ s ∧ s ≤ 149) ∧
      (10 ≤ d.unitsStart ∧ d.unitsStart ≤ 79) ∧
      (∀ s ∈ d.unitsSteps, -10 ≤ s ∧ s ≤ 19)) ∧
    (∀ x : Int, 300 ≤ x → x ≤ 1499 → ∃ d : ProductDraws, d.Valid ∧ d.revStart = x) ∧
    (∀ x : Int, -100 ≤ x → x ≤ 149 → ∃ d : ProductDraws, d.Valid ∧ x ∈ d.revSteps) ∧
    (∀ x : Int, 10 ≤ x → x ≤ 79 → ∃ d : ProductDraws, d.Valid ∧ d.unitsStart = x) ∧
    (∀ x : Int, -10 ≤ x → x ≤ 19 → ∃ d : ProductDraws, d.Valid ∧ x ∈ d.unitsSteps) := by
  refine ⟨?_, ?_, ?_, ?_, ?_⟩
  · intro d hv
    obtain ⟨⟨h1, h2⟩, _, hsteps, ⟨h3, h4⟩, _, htsteps, _⟩ := hv
    refine ⟨⟨h1, by omega⟩, ?_, ⟨h3, by omega⟩, ?_⟩
    · intro s hs
      have := hsteps s hs
      omega
    · intro s hs
      have := htsteps s hs
      omega
  · intro x hx1 hx2
    exact ⟨ProductDraws.mk x (List.replicate 12 0) 10 (List.replicate 12 0)
        [1, 0, 0, 0] 4 "Low" 100,
      valid_of_bounds x ⟨hx1, by omega⟩ _ (by decide) replicate_step_rev
        10 ⟨by decide, by decide⟩ _ (by decide) replicate_step_units, rfl⟩
  · intro x hx1 hx2
    refine ⟨ProductDraws.mk 300 (x :: List.replicate 11 0) 10 (List.replicate 12 0)
        [1, 0, 0, 0] 4 "Low" 100,
      valid_of_bounds 300 ⟨by decide, by decide⟩ _ (by simp) ?_
        10 ⟨by decide, by decide⟩ _ (by decide) replicate_step_units,
      List.mem_cons_self x _⟩
    intro s hs
    rcases List.mem_cons.mp hs with h | h
    · rw [h]
      exact ⟨hx1, by omega⟩
    · rw [List.eq_of_mem_replicate h]
      decide
  · intro x hx1 hx2
    exact ⟨ProductDraws.mk 300 (List.replicate 12 0) x (List.replicate 12 0)
        [1, 0, 0, 0] 4 "Low" 100,
      valid_of_bounds 300 ⟨by decide, by decide⟩ _ (by decide) replicate_step_rev
        x ⟨hx1, by omega⟩ _ (by decide) replicate_step_units, rfl⟩
  · intro x hx1 hx2
    refine ⟨ProductDraws.mk 300 (List.replicate 12 0) 10 (x :: List.replicate 11 0)
        [1, 0, 0, 0] 4 "Low" 100,
      valid_of_bounds 300 ⟨by decide, by decide⟩ _ (by decide) replicate_step_rev
        10 ⟨by decide, by decide⟩ _ (by simp) ?_,
      List.mem_cons_self x _⟩
    intro s hs
    rcases List.mem_cons.mp hs with h | h
    · rw [h]
      exact ⟨hx1, by omega⟩
    · rw [List.eq_of_mem_replicate h]
      decide

/-- C6 witness: 1499, the largest integer below the exclusive bound, is a
possible revenue start draw. -/
theorem c6_witness : ∃ d : ProductDraws, d.Valid ∧ d.revStart = 1499 :=
  c6_trend_draw_ranges.2.1 1499 (by decide) (by decide)

/-- C3: the catalog is built exactly once per process lifetime; starting
from the empty cache, a second retrieval returns exactly the collection
the first retrieval produced (same ids, values and order), consumes no
fresh randomness (the second draw argument is arbitrary and unused), and
leaves the cached state untouched. -/
theorem c3_catalog_memoized (d1 d2 : List ProductDraws) :
    (getCatalog d2 (getCatalog d1 ⟨none⟩).2).1 = (getCatalog d1 ⟨none⟩).1 ∧
    (getCatalog d2 (getCatalog d1 ⟨none⟩).2).2 = (getCatalog d1 ⟨none⟩).2 ∧
    (getCatalog d1 ⟨none⟩).1 = generate_initial_data d1 :=
  ⟨rfl, rfl, rfl⟩

/-- C4: with warnThreshold at most goodThreshold, the classification is
Good exactly when the target percentage reaches the good threshold,
otherwise Warning exactly when it reaches the warning threshold, and
otherwise Needs Improvement; with the concrete spec examples at
thresholds good 100 and warn 80. -/
theorem c4_classify_target (t good warn : Int) (h : warn ≤ good) :
    (status_emoji t good warn = "✅ Good" ↔ good ≤ t) ∧
    (t < good → (status_emoji t good warn = "⚠️ Warning" ↔ warn ≤ t)) ∧
    (t < good → t < warn → status_emoji t good warn = "❌ Needs Improvement") ∧
    status_emoji 100 100 80 = "✅ Good" ∧
    status_emoji 85 100 80 = "⚠️ Warning" ∧
    status_emoji 50 100 80 = "❌ Needs Improvement" := by
  refine ⟨?_, ?_, ?_, by decide, by decide, by decide⟩
  · unfold status_emoji
    split_ifs with h1 h2 <;> simp_all <;> omega
  · intro hlt
    unfold status_emoji
    split_ifs with h1 h2 <;> simp_all <;> omega
  · intro hlt1 hlt2
    unfold status_emoji
    split_ifs with h1 h2 <;> simp_all <;> omega

/-- C4 witness: the Warning classification evaluated at 85 percent with
thresholds good 100 and warn 80. -/
theorem c4_witness : status_emoji 85 100 80 = "⚠️ Warning" :=
  (c4_classify_target 85 100 80 (by decide)).2.2.2.2.1

/-- C9: applied to an empty catalog the aggregates return neutral values
instead of failing: both total KPIs are zero and the average rating is the
defined NaN marker none rather than an error. -/
theorem c9_empty_catalog_neutral :
    totalRevenue [] = 0 ∧ totalUnits [] = 0 ∧ averageRating [] = none :=
  ⟨rfl, rfl, rfl⟩

/-- C10: for every column count the sidebar slider accepts and every
record position, the assigned column index is strictly below the number of
columns created, so the grid lookup never goes out of bounds. -/
theorem c10_col_idx_in_bounds (n : Nat) (hn : sliderAccepts n) (i : Nat) :
    col_idx i n < n :=
  Nat.mod_lt _ (Nat.lt_of_lt_of_le Nat.zero_lt_one hn.1)

/-- C10 witness: position 6 with 3 columns lands in column 0, below 3. -/
theorem c10_witness : col_idx 6 3 < 3 :=
  c10_col_idx_in_bounds 3 ⟨by decide, by decide⟩ 6

theorem round1_nonneg (y : ℚ) (hy : 0 ≤ y) : 0 ≤ round1 y := by
  unfold round1
  apply div_nonneg _ (by norm_num)
  have h : (0 : ℤ) ≤ round (10 * y) := by
    rw [round_eq]
    exact Int.floor_nonneg.mpr (by linarith)
  exact_mod_cast h

theorem round1_err (y : ℚ) : |round1 y - y| ≤ 1 / 20 := by
  unfold round1
  have h := abs_sub_round (10 * y)
  rw [abs_sub_comm] at h
  have h2 : ((round (10 * y) : ℤ) : ℚ) / 10 - y =
      (((round (10 * y) : ℤ) : ℚ) - 10 * y) / 10 := by ring
  rw [h2, abs_div]
  have h10 : |(10 : ℚ)| = 10 := by norm_num
  rw [h10]
  linarith

/-- C7: for every catalog record the channel-share keys are exactly the
four fixed channels in order, every share is nonnegative and is an integer
multiple of one tenth (rounded to 1 decimal), and the share total differs
from 100 by strictly less than 1. -/
theorem c7_channel_share (draws : List ProductDraws) (hv : ∀ d ∈ draws, d.Valid)
    (r : ProductRecord) (hr : r ∈ generate_initial_data draws) :
    r.channelShare.map Prod.fst = channels ∧
    (∀ p ∈ r.channelShare, 0 ≤ p.2 ∧ ∃ k : ℤ, p.2 = (k : ℚ) / 10) ∧
    |(r.channelShare.map Prod.snd).sum - 100| < 1 := by
  obtain ⟨i, n, d, hd, rfl⟩ := mem_generate_initial_data hr
  obtain ⟨-, -, -, -, -, -, hlen, hnn, hsum, -, -, -⟩ := hv d hd
  rw [mkRecord_channelShare]
  have hlen2 : ((d.chanDist.map (fun p => 100 * p)).map round1).length =
      channels.length := by
    simp [hlen]
  refine ⟨List.map_fst_zip _ _ (le_of_eq hlen2.symm), ?_, ?_⟩
  · rintro ⟨a, b⟩ hp
    have hb : b ∈ (d.chanDist.map (fun p => 100 * p)).map round1 :=
      (List.of_mem_zip hp).2
    obtain ⟨y, hy, rfl⟩ := List.mem_map.mp hb
    obtain ⟨x, hx, rfl⟩ := List.mem_map.mp hy
    have hx0 : 0 ≤ x := hnn x hx
    exact ⟨round1_nonneg _ (by linarith), round (10 * (100 * x)), rfl⟩
  · rw [List.map_snd_zip _ _ (le_of_eq hlen2)]
    have hlen4 : d.chanDist.length = 4 := hlen
    obtain ⟨a, l1, h1⟩ := List.exists_of_length_succ d.chanDist hlen4
    have hl1 : l1.length = 3 := by
      rw [h1] at hlen4
      simpa using hlen4
    obtain ⟨b, l2, h2⟩ := List.exists_of_length_succ l1 hl1
    have hl2 : l2.length = 2 := by
      rw [h2] at hl1
      simpa using hl1
    obtain ⟨c, l3, h3⟩ := List.exists_of_length_succ l2 hl2
    have hl3 : l3.length = 1 := by
      rw [h3] at hl2
      simpa using hl2
    obtain ⟨e, l4, h4⟩ := List.exists_of_length_succ l3 hl3
    have hl4 : l4 = [] := by
      rw [h4] at hl3
      simpa using hl3
    have hcd : d.chanDist = [a, b, c, e] := by
      rw [h1, h2, h3, h4, hl4]
    rw [hcd] at hsum
    rw [hcd]
    have hsum2 : a + b + c + e = 1 := by
      simp [List.sum_cons, List.sum_nil] at hsum
      linarith
    have e1 := round1_err (100 * a)
    have e2 := round1_err (100 * b)
    have e3 := round1_err (100 * c)
    have e4 := round1_err (100 * e)
    rw [abs_le] at e1 e2 e3 e4
    simp only [List.map_cons, List.map_nil, List.sum_cons, List.sum_nil]
    rw [abs_lt]
    constructor <;> linarith

/-- C7 witness: the channel-share keys of the concrete record built from
the example draw are exactly the four channels. -/
theorem c7_witness : r0.channelShare.map Prod.fst = channels :=
  (c7_channel_share [d0]
    (fun d hd => by rw [List.mem_singleton.mp hd]; exact d0_valid)
    r0 r0_mem_singleton).1

theorem filter_orderedInsert (r : ProductRecord → ProductRecord → Prop)
    [DecidableRel r] (p : ProductRecord → Bool)
    (hcompat : ∀ a b, p a = true → ¬ r a b → p b = false)
    (a : ProductRecord) (l : List ProductRecord) :
    (List.orderedInsert r a l).filter p = (a :: l).filter p := by
  induction l with
  | nil => rfl
  | cons b l ih =>
    by_cases hr : r a b
    · simp [List.orderedInsert, hr]
    · by_cases hpa : p a = true
      · have hpb := hcompat a b hpa hr
        simp [List.orderedInsert, hr, List.filter_cons, hpb, hpa, ih]
      · have hpa2 : p a = false := by
          rwa [Bool.not_eq_true] at hpa
        simp [List.orderedInsert, hr, List.filter_cons, hpa2, ih]

theorem filter_insertionSort (r : ProductRecord → ProductRecord → Prop)
    [DecidableRel r] (p : ProductRecord → Bool)
    (hcompat : ∀ a b, p a = true → ¬ r a b → p b = false)
    (l : List ProductRecord) :
    (List.insertionSort r l).filter p = l.filter p := by
  induction l with
  | nil => rfl
  | cons a l ih =>
    rw [List.insertionSort, filter_orderedInsert r p hcompat a _,
      List.filter_cons, List.filter_cons, ih]

theorem keyClass_compat (c : SortColumn) (r1 a b : ProductRecord)
    (hpa : keyClass c r1 a = true) (hr : ¬ keyLe c a b) :
    keyClass c r1 b = false := by
  cases c
  case ytdRevenue =>
    simp only [keyClass, beq_iff_eq] at hpa
    simp only [keyLe] at hr
    simp only [keyClass, beq_eq_false_iff_ne, ne_eq]
    omega
  case rating =>
    simp only [keyClass, beq_iff_eq] at hpa
    simp only [keyLe] at hr
    simp only [keyClass, beq_eq_false_iff_ne, ne_eq]
    intro h
    exact hr (le_of_eq (by rw [hpa, h]))
  case ytdUnits =>
    simp only [keyClass, beq_iff_eq] at hpa
    simp only [keyLe] at hr
    simp only [keyClass, beq_eq_false_iff_ne, ne_eq]
    omega

/-- C5 (amended): for every sort column the ascending sort is stable (each
tie class appears in its original catalog order) and is sorted on the key;
the descending sort is the reverse of the ascending sort, so records tied
on the key appear in reversed original order when the direction is
descending. -/
theorem c5_sort_semantics (recs : List ProductRecord) (c : SortColumn)
    (r1 : ProductRecord) :
    (sort_values recs c true).filter (keyClass c r1) =
      recs.filter (keyClass c r1) ∧
    sort_values recs c false = (sort_values recs c true).reverse ∧
    List.Sorted (keyLe c) (sort_values recs c true) := by
  refine ⟨?_, rfl, ?_⟩
  · show (List.insertionSort (keyLe c) recs).filter (keyClass c r1) =
      recs.filter (keyClass c r1)
    exact filter_insertionSort (keyLe c) (keyClass c r1) (keyClass_compat c r1) recs
  · haveI h1 : IsTotal ProductRecord (keyLe c) :=
      ⟨fun a b => by cases c <;> exact le_total _ _⟩
    haveI h2 : IsTrans ProductRecord (keyLe c) :=
      ⟨fun a b d hab hbd => by
        cases c <;> simp only [keyLe] at hab hbd ⊢ <;> exact le_trans hab hbd⟩
    show List.Sorted (keyLe c) (List.insertionSort (keyLe c) recs)
    exact List.sorted_insertionSort (keyLe c) recs

/-- C5 counterexample: on the concrete catalog whose seven records all
carry YTD revenue 900 (so every pair of records ties on the revenue key),
sorting by revenue descending yields the exact reversal of the catalog,
so tied records appear in reversed rather than original catalog order,
refuting the claim for the descending direction. -/
theorem c5_counterexample :
    cat7.map (fun r => r.ytdRevenue) = List.replicate 7 (900 : Int) ∧
    cat7.map (fun r => r.name) = product_names ∧
    (sort_values cat7 SortColumn.ytdRevenue false).map (fun r => r.name) =
      product_names.reverse ∧
    ((sort_values cat7 SortColumn.ytdRevenue false).filter
        (keyClass SortColumn.ytdRevenue r0)).map (fun r => r.name) ≠
      (cat7.filter (keyClass SortColumn.ytdRevenue r0)).map (fun r => r.name) := by
  refine ⟨by decide, by decide, by decide, by decide⟩

/-- C8: the category roll-up pairs each present category with the sum of
ytdRevenue over exactly the records of that category, covers every
category present in the catalog, and is ordered ascending by total. -/
theorem c8_category_totals (recs : List ProductRecord) :
    (∀ p ∈ category_performance recs,
      p.2 = ((recs.filter (fun r => r.category == p.1)).map
        (fun r => r.ytdRevenue)).sum ∧
      p.1 ∈ recs.map (fun r => r.category)) ∧
    (∀ r ∈ recs, ∃ p ∈ category_performance recs, p.1 = r.category) ∧
    List.Sorted (fun p q : String × Int => p.2 ≤ q.2)
      (category_performance recs) := by
  refine ⟨?_, ?_, ?_⟩
  · intro p hp
    have hp2 : p ∈ (categories_sorted recs).map
        (fun c => (c, ((recs.filter (fun r => r.category == c)).map
          (fun r => r.ytdRevenue)).sum)) :=
      (List.perm_insertionSort _ _).mem_iff.mp hp
    obtain ⟨cc, hcc, rfl⟩ := List.mem_map.mp hp2
    refine ⟨rfl, ?_⟩
    have h3 : cc ∈ (recs.map (fun r => r.category)).dedup :=
      (List.perm_insertionSort _ _).mem_iff.mp hcc
    exact List.mem_dedup.mp h3
  · intro r hr
    have h1 : r.category ∈ recs.map (fun x => x.category) :=
      List.mem_map_of_mem _ hr
    have h2 : r.category ∈ (recs.map (fun x => x.category)).dedup :=
      List.mem_dedup.mpr h1
    have h3 : r.category ∈ categories_sorted recs :=
      (List.perm_insertionSort _ _).mem_iff.mpr h2
    refine ⟨(r.category, ((recs.filter (fun x => x.category == r.category)).map
      (fun x => x.ytdRevenue)).sum), ?_, rfl⟩
    exact (List.perm_insertionSort _ _).mem_iff.mpr (List.mem_map_of_mem _ h3)
  · haveI : IsTotal (String × Int) (fun p q => p.2 ≤ q.2) :=
      ⟨fun a b => le_total a.2 b.2⟩
    haveI : IsTrans (String × Int) (fun p q => p.2 ≤ q.2) :=
      ⟨fun a b c hab hbc => le_trans hab hbc⟩
    exact List.sorted_insertionSort _ _

theorem r0_mem_cat7 : r0 ∈ cat7 :=
  List.mem_cons_self r0 _

/-- C8 witness: on the concrete catalog, some roll-up entry carries the
category of the first record. -/
theorem c8_witness : ∃ p ∈ category_performance cat7, p.1 = r0.category :=
  (c8_category_totals cat7).2.1 r0 r0_mem_cat7
